import Mathlib

/-!
Verification development for the resilience wrapper library.

The embedding translates the source functions into pure Lean definitions:

* `CircuitBreaker` with `canAttempt` / `onSuccess` / `onFailure` mirrors the
  `CircuitBreaker` class; every `Date.now()` call becomes an explicit `now : Int`
  argument, and the mutation of `this` becomes explicit state passing
  (`canAttempt` returns the boolean together with the possibly updated breaker).
* `computeBackoffMs` mirrors the source function; the `Math.random()` draw for
  jitter is an explicit input `rand : ℚ` (intended range `[0, 1)`).
* A settled JS promise is modelled as `Option (ℚ × value)`: the settle time and
  the settled value, `none` meaning the promise never settles.  `Promise.race`
  becomes `race`, preferring the earlier settle time.  `withTimeout` mirrors the
  source: the second component of its result records the time at which the
  timer callback runs `controller.abort()` (`none` when no timer is installed
  or no controller was supplied).
* The module-level `activeSignal` slot becomes an explicit `slot : Option Sg`
  value threaded through `runWithActiveSignal` and the attempt loop; the body
  of an attempt may mutate the slot arbitrarily (`bodySlot`), mirroring the fact
  that the wrapped callable can itself touch the ambient context.
* The attempt loop of `withResilience` becomes `attemptLoop`, structurally
  recursive on the number of remaining loop iterations (`fuel`, initially
  `retries + 1`).  The wrapped callable's behaviour is an input
  `outcome : Nat → Except ε α` giving the result of its i-th invocation, and
  `time : Nat → Int` gives the `Date.now()` reading during attempt number i.
  The output records the final result, the number of invocations of the
  underlying callable (`inv`), the number of `onAttempt` hook firings (`att`),
  the number of `onRetry` firings / backoff computations (`retriesFired`),
  the final breaker state and the final ambient slot value.
* `sleep` is modelled as a function of the duration and of the time at which
  the supplied signal triggers (`none` = never, a value `≤ 0` = already
  triggered when `sleep` is called); the result is either resolution at `ms`
  or rejection with the cancellation error at the given time.
-/

namespace Resilience

/-- Circuit breaker state (`Resilience.CircuitState` in the source). -/
inductive CircuitState where
  | CLOSED
  | OPEN
  | HALF_OPEN
deriving DecidableEq, Repr

/-- `Resilience.CircuitBreakerConfig`. -/
structure CircuitBreakerConfig where
  failureThreshold : Nat
  resetTimeoutMs : Int
deriving DecidableEq, Repr

/-- The `CircuitBreaker` class: its configuration together with its mutable
fields `state`, `failures`, `openedAt`. -/
structure CircuitBreaker where
  cfg : CircuitBreakerConfig
  state : CircuitState := .CLOSED
  failures : Nat := 0
  openedAt : Int := 0
deriving DecidableEq, Repr

/-- `CircuitBreaker.canAttempt`, with `Date.now()` passed in as `now`; returns
the boolean together with the possibly updated breaker (`OPEN → HALF_OPEN`
when the reset timeout has elapsed). -/
def CircuitBreaker.canAttempt (b : CircuitBreaker) (now : Int) : Bool × CircuitBreaker :=
  if b.state = .CLOSED then (true, b)
  else if b.state = .OPEN ∧ now - b.openedAt ≥ b.cfg.resetTimeoutMs then
    (true, { b with state := .HALF_OPEN })
  else (decide (b.state = .HALF_OPEN), b)

/-- `CircuitBreaker.onSuccess`: back to `CLOSED`, failure count reset. -/
def CircuitBreaker.onSuccess (b : CircuitBreaker) : CircuitBreaker :=
  { b with state := .CLOSED, failures := 0 }

/-- `CircuitBreaker.onFailure`: increment `failures`; open the circuit and
record `openedAt = now` once the threshold is reached. -/
def CircuitBreaker.onFailure (b : CircuitBreaker) (now : Int) : CircuitBreaker :=
  if b.failures + 1 ≥ b.cfg.failureThreshold then
    { b with failures := b.failures + 1, state := .OPEN, openedAt := now }
  else
    { b with failures := b.failures + 1 }

/-- `Resilience.BackoffStrategy`: `fixed` or `exponential`. -/
inductive BackoffStrategy where
  | fixed (delayMs : ℚ)
  | exponential (baseDelayMs maxDelayMs : ℚ) (jitter : Bool)

/-- `computeBackoffMs(strategy, attempt)`.  The `Math.random()` draw is the
explicit input `rand`; it is only consulted when jitter is enabled. -/
def computeBackoffMs (strategy : Option BackoffStrategy) (attempt : Int) (rand : ℚ) : ℚ :=
  match strategy with
  | none => 0
  | some (.fixed delayMs) => delayMs
  | some (.exponential baseDelayMs maxDelayMs jitter) =>
    let raw := baseDelayMs * 2 ^ (max 0 (attempt - 1)).toNat
    let capped := min raw maxDelayMs
    if jitter then (⌊rand * capped⌋ : ℚ) else capped

/-- A settled JS promise: `some (t, v)` settles at time `t` with value `v`,
`none` never settles. -/
abbrev JSPromise (α : Type) := Option (ℚ × α)

/-- `Promise.race` over two promises: the earlier settlement wins (the first
argument on a tie). -/
def race {α : Type} (p q : JSPromise α) : JSPromise α :=
  match p, q with
  | none, q => q
  | some pv, none => some pv
  | some (t₁, v₁), some (t₂, v₂) => if t₁ ≤ t₂ then some (t₁, v₁) else some (t₂, v₂)

/-- Error kind of a timed attempt: the timer's `Error("TimeoutError")`, or a
failure of the underlying operation. -/
inductive TimeoutOr (ε : Type) where
  | timeoutErr
  | user (e : ε)
deriving DecidableEq, Repr

/-- Injects an operation outcome into the timed error kind. -/
def liftUser {ε α : Type} : Except ε α → Except (TimeoutOr ε) α
  | .ok a => .ok a
  | .error e => .error (.user e)

/-- Injects a promise of operation outcomes into timed outcomes. -/
def liftPromise {ε α : Type} (p : JSPromise (Except ε α)) :
    JSPromise (Except (TimeoutOr ε) α) :=
  p.map fun tr => (tr.1, liftUser tr.2)

/-- `withTimeout(p, timeoutMs, controller)`.  `if (!timeoutMs) return p` is the
`none` / `some 0` cases.  Otherwise the promise races a timer that settles at
`timeoutMs` with the `TimeoutError` rejection after running
`controller?.abort()`.  The second component is the time at which the abort
fires: `some timeoutMs` when a timer was installed and a controller supplied
(the source never clears the timer), `none` otherwise. -/
def withTimeout {ε α : Type} (p : JSPromise (Except ε α)) (timeoutMs : Option ℚ)
    (controllerPresent : Bool) : JSPromise (Except (TimeoutOr ε) α) × Option ℚ :=
  match timeoutMs with
  | none => (liftPromise p, none)
  | some T =>
    if T = 0 then (liftPromise p, none)
    else (race (liftPromise p) (some (T, .error .timeoutErr)),
          if controllerPresent then some T else none)

/-- Outcome of `sleep`: resolution at time `t`, or rejection with the
cancellation error (`Error("Aborted")` in the source) at time `t`. -/
inductive SleepOutcome where
  | resolvedAt (t : ℚ)
  | cancelledAt (t : ℚ)
deriving DecidableEq, Repr

/-- `sleep(ms, signal)`.  The signal is modelled by the time at which it
triggers, relative to the call: `none` = never, `some a` with `a ≤ 0` =
already aborted when `sleep` runs its synchronous check, `some a` with
`0 < a` = the abort event fires at time `a` during the wait.  A trigger at or
after `ms` loses to the timer: the promise is already resolved. -/
def sleep (ms : ℚ) (signal : Option ℚ) : SleepOutcome :=
  match signal with
  | none => .resolvedAt ms
  | some a =>
    if a ≤ 0 then .cancelledAt 0
    else if a < ms then .cancelledAt a
    else .resolvedAt ms

/-- `runWithActiveSignal(signal, fn)` with the module-level `activeSignal`
slot threaded explicitly: saves the previous slot value, installs `signal`,
runs the body (which sees the installed value and may mutate the slot), and
in the `finally` restores the saved value whatever the body did. -/
def runWithActiveSignal {Sg β : Type} (signal : Option Sg)
    (fn : Option Sg → β × Option Sg) (slot : Option Sg) : β × Option Sg :=
  let prev := slot
  let r := fn signal
  (r.1, prev)

/-- The signal installed for one attempt:
`config.useAbortSignal ? new AbortController() : undefined` followed by
`controller?.signal`.  `freshSig attempt` stands for the fresh controller's
signal of that attempt. -/
def attemptSignal {Sg : Type} (useAbortSignal : Bool) (freshSig : Nat → Sg)
    (attempt : Nat) : Option Sg :=
  if useAbortSignal then some (freshSig attempt) else none

/-- Error kind of a wrapped call: the wrapper's `CircuitOpenError`, an error of
the attempt itself (the callable's own failure or a `TimeoutError`, both
abstracted into `ε`), or the defensive `UnknownError` fallback. -/
inductive RError (ε : Type) where
  | circuitOpen
  | user (e : ε)
  | unknownErr
deriving DecidableEq, Repr

/-- Observable result of one invocation of the wrapped callable:
the settled result, the number of invocations of the underlying callable
(`inv`), the number of `onAttempt` firings (`att`), the number of `onRetry`
firings = backoff computations (`retriesFired`), the final breaker, and the
final ambient slot value. -/
structure LoopOut (ε α Sg : Type) where
  result : Except (RError ε) α
  inv : Nat
  att : Nat
  retriesFired : Nat
  breaker : Option CircuitBreaker
  slot : Option Sg

/-- `if (breaker && !breaker.canAttempt())` as one step: the gate boolean and
the breaker after the `canAttempt` call. -/
def circuitGate (br : Option CircuitBreaker) (now : Int) : Bool × Option CircuitBreaker :=
  match br with
  | none => (true, none)
  | some b => ((b.canAttempt now).1, some (b.canAttempt now).2)

/-- The attempt loop of `withResilience` (source lines 104–145).  `fuel` is the
number of loop iterations still permitted (`retries + 2 - attempt` at the head
of each iteration); `attempt` is the 1-based attempt counter; `inv`, `att`,
`rf` accumulate invocation, `onAttempt` and `onRetry` counts; `lastErr`
mirrors the `lastErr` variable.  The `fuel = 0` case is the
`throw lastErr ?? new Error("UnknownError")` line after the loop. -/
def attemptLoop {ε α Sg : Type} (retries : Nat) (retryOn : ε → Bool)
    (outcome : Nat → Except ε α) (time : Nat → Int)
    (useAbortSignal : Bool) (freshSig : Nat → Sg)
    (bodySlot : Nat → Option Sg → Option Sg) :
    Nat → Nat → Nat → Nat → Nat → Option CircuitBreaker → Option Sg → Option ε →
    LoopOut ε α Sg
  | 0, _attempt, inv, att, rf, br, slot, lastErr =>
    { result := .error (match lastErr with | some e => .user e | none => .unknownErr),
      inv := inv, att := att, retriesFired := rf, breaker := br, slot := slot }
  | fuel + 1, attempt, inv, att, rf, br, slot, _lastErr =>
    let gate := circuitGate br (time attempt)
    if gate.1 then
      let run := runWithActiveSignal (attemptSignal useAbortSignal freshSig attempt)
        (fun s => (outcome inv, bodySlot attempt s)) slot
      match run.1 with
      | .ok a =>
        { result := .ok a, inv := inv + 1, att := att + 1, retriesFired := rf,
          breaker := Option.map CircuitBreaker.onSuccess gate.2, slot := run.2 }
      | .error e =>
        if attempt ≤ retries ∧ retryOn e = true then
          attemptLoop retries retryOn outcome time useAbortSignal freshSig bodySlot
            fuel (attempt + 1) (inv + 1) (att + 1) (rf + 1)
            (Option.map (fun b => CircuitBreaker.onFailure b (time attempt)) gate.2)
            run.2 (some e)
        else
          { result := .error (.user e), inv := inv + 1, att := att + 1, retriesFired := rf,
            breaker := Option.map (fun b => CircuitBreaker.onFailure b (time attempt)) gate.2,
            slot := run.2 }
    else
      { result := .error .circuitOpen, inv := inv, att := att + 1, retriesFired := rf,
        breaker := gate.2, slot := slot }

/-- The breaker created at wrap time when a circuit-breaker configuration is
supplied: fresh `CLOSED` state. -/
def initBreaker (cb : Option CircuitBreakerConfig) : Option CircuitBreaker :=
  Option.map (fun c => { cfg := c }) cb

/-- One invocation of the callable returned by `withResilience`: the attempt
loop entered with `attempt = 1` and `fuel = retries + 1`, against the current
breaker state and the current ambient slot value. -/
def withResilience {ε α Sg : Type} (retries : Nat) (retryOn : ε → Bool)
    (outcome : Nat → Except ε α) (time : Nat → Int)
    (useAbortSignal : Bool) (freshSig : Nat → Sg)
    (bodySlot : Nat → Option Sg → Option Sg)
    (br : Option CircuitBreaker) (slot : Option Sg) : LoopOut ε α Sg :=
  attemptLoop retries retryOn outcome time useAbortSignal freshSig bodySlot
    (retries + 1) 1 0 0 0 br slot none

/-- Breaker states reachable from the freshly constructed breaker for a given
configuration, under the three operations (each with an arbitrary
`Date.now()` reading). -/
inductive Reachable (cfg : CircuitBreakerConfig) : CircuitBreaker → Prop where
  | init : Reachable cfg { cfg := cfg }
  | canAtt {b : CircuitBreaker} (now : Int) :
      Reachable cfg b → Reachable cfg (b.canAttempt now).2
  | success {b : CircuitBreaker} :
      Reachable cfg b → Reachable cfg b.onSuccess
  | failure {b : CircuitBreaker} (now : Int) :
      Reachable cfg b → Reachable cfg (b.onFailure now)

/-- Scenario configuration for the threshold-3 breaker. -/
def cbScenCfg : CircuitBreakerConfig := { failureThreshold := 3, resetTimeoutMs := 100 }

/-- One invocation of a breaker-protected wrapped callable (no retries) whose
underlying callable fails with error `7`, at time `t`. -/
def cbScenFailCall (t : Int) (br : Option CircuitBreaker) : LoopOut Nat Nat Unit :=
  withResilience 0 (fun _ => true) (fun _ => .error 7) (fun _ => t) false
    (fun _ => ()) (fun _ s => s) br none

/-- One invocation of the same wrapped callable whose underlying callable
succeeds with `42`, at time `t`. -/
def cbScenOkCall (t : Int) (br : Option CircuitBreaker) : LoopOut Nat Nat Unit :=
  withResilience 0 (fun _ => true) (fun _ => .ok 42) (fun _ => t) false
    (fun _ => ()) (fun _ s => s) br none

/-- First failing call, at time 0, against the freshly wrapped breaker. -/
def cbScenOut1 : LoopOut Nat Nat Unit := cbScenFailCall 0 (initBreaker (some cbScenCfg))

/-- Second failing call, at time 1. -/
def cbScenOut2 : LoopOut Nat Nat Unit := cbScenFailCall 1 cbScenOut1.breaker

/-- Third failing call, at time 2: reaches the failure threshold. -/
def cbScenOut3 : LoopOut Nat Nat Unit := cbScenFailCall 2 cbScenOut2.breaker

/-- Fourth call, at time 50, before `resetTimeoutMs` has elapsed since opening. -/
def cbScenOut4 : LoopOut Nat Nat Unit := cbScenFailCall 50 cbScenOut3.breaker

/-- Fifth call, at time 200, after `resetTimeoutMs` has elapsed; succeeds. -/
def cbScenOut5 : LoopOut Nat Nat Unit := cbScenOkCall 200 cbScenOut4.breaker

/-- C5: the backoff calculator returns 0 with no strategy; the constant
`delayMs` for `fixed`, independently of the attempt; for `exponential` without
jitter, `baseDelayMs * 2 ^ (attempt - 1)` clamped to `maxDelayMs`, with an
attempt index ≤ 1 (0 or negative included) treated as 1; in particular base 50
capped at 400 yields 50, 100, 200, 400, 400 for attempts 1–5; and with jitter
the value is an integer in `[0, cappedDelay)` when the random draw lies in
`[0, 1)` and the capped delay is positive. -/
theorem claim_C5_backoff :
    (∀ (attempt : Int) (rand : ℚ), computeBackoffMs none attempt rand = 0) ∧
    (∀ (d : ℚ) (attempt : Int) (rand : ℚ),
      computeBackoffMs (some (.fixed d)) attempt rand = d) ∧
    (∀ (b m rand : ℚ) (attempt : Int), attempt ≤ 1 →
      computeBackoffMs (some (.exponential b m false)) attempt rand =
        computeBackoffMs (some (.exponential b m false)) 1 rand) ∧
    (∀ (b m rand : ℚ) (attempt : Int), 1 ≤ attempt →
      computeBackoffMs (some (.exponential b m false)) attempt rand =
        min (b * 2 ^ (attempt - 1).toNat) m) ∧
    (computeBackoffMs (some (.exponential 50 400 false)) 1 0 = 50 ∧
     computeBackoffMs (some (.exponential 50 400 false)) 2 0 = 100 ∧
     computeBackoffMs (some (.exponential 50 400 false)) 3 0 = 200 ∧
     computeBackoffMs (some (.exponential 50 400 false)) 4 0 = 400 ∧
     computeBackoffMs (some (.exponential 50 400 false)) 5 0 = 400) ∧
    (∀ (b m rand : ℚ) (attempt : Int), 0 ≤ rand → rand < 1 →
      0 < min (b * 2 ^ (max 0 (attempt - 1)).toNat) m →
      ∃ z : ℤ, computeBackoffMs (some (.exponential b m true)) attempt rand = (z : ℚ) ∧
        0 ≤ (z : ℚ) ∧ (z : ℚ) < min (b * 2 ^ (max 0 (attempt - 1)).toNat) m) := by
  refine ⟨fun _ _ => rfl, fun _ _ _ => rfl, ?_, ?_,
    ⟨by simp [computeBackoffMs, min_def]; norm_num,
     by simp [computeBackoffMs, min_def]; norm_num,
     by simp [computeBackoffMs, min_def]; norm_num,
     by simp [computeBackoffMs, min_def]; norm_num,
     by simp [computeBackoffMs, min_def]; norm_num⟩, ?_⟩
  · intro b m rand attempt h
    have h1 : max 0 (attempt - 1) = 0 := by omega
    simp [computeBackoffMs, h1]
  · intro b m rand attempt h
    have h1 : max 0 (attempt - 1) = attempt - 1 := by omega
    simp [computeBackoffMs, h1]
  · intro b m rand attempt h0 h1 hc
    set c : ℚ := min (b * 2 ^ (max 0 (attempt - 1)).toNat) m with hcdef
    refine ⟨⌊rand * c⌋, ?_, ?_, ?_⟩
    · simp [computeBackoffMs, ← hcdef]
    · have : (0 : ℚ) ≤ rand * c := mul_nonneg h0 (le_of_lt hc)
      exact_mod_cast Int.floor_nonneg.mpr this
    · calc (⌊rand * c⌋ : ℚ) ≤ rand * c := Int.floor_le _
        _ < 1 * c := by exact mul_lt_mul_of_pos_right h1 hc
        _ = c := one_mul c

/-- C5 witness: concrete instances discharging the hypotheses of the
conditional conjuncts of `claim_C5_backoff`. -/
theorem claim_C5_backoff_witness :
    computeBackoffMs (some (.exponential 50 400 false)) 0 0 =
      computeBackoffMs (some (.exponential 50 400 false)) 1 0 ∧
    computeBackoffMs (some (.exponential 50 400 false)) 3 0 =
      min ((50 : ℚ) * 2 ^ ((3 : Int) - 1).toNat) 400 ∧
    (∃ z : ℤ, computeBackoffMs (some (.exponential 50 400 true)) 3 (1 / 2) = (z : ℚ) ∧
      0 ≤ (z : ℚ) ∧
      (z : ℚ) < min ((50 : ℚ) * 2 ^ (max 0 ((3 : Int) - 1)).toNat) 400) := by
  refine ⟨?_, ?_, ?_⟩
  · exact claim_C5_backoff.2.2.1 50 400 0 0 (by decide)
  · exact claim_C5_backoff.2.2.2.1 50 400 0 3 (by decide)
  · exact claim_C5_backoff.2.2.2.2.2 50 400 (1 / 2) 3 (by norm_num) (by norm_num) (by norm_num)

/-- C8: the cancellable delay resolves after the duration when the signal never
triggers, rejects immediately with the cancellation error when the signal is
already triggered at call time, and rejects at the trigger moment when the
signal triggers during the wait. -/
theorem claim_C8_sleep (ms a : ℚ) :
    sleep ms none = .resolvedAt ms ∧
    (a ≤ 0 → sleep ms (some a) = .cancelledAt 0) ∧
    (0 < a → a < ms → sleep ms (some a) = .cancelledAt a) := by
  refine ⟨rfl, fun h => ?_, fun h1 h2 => ?_⟩
  · simp [sleep, h]
  · simp [sleep, not_le.mpr h1, h2]

/-- C8 witness: `claim_C8_sleep` at a concrete duration and trigger times. -/
theorem claim_C8_sleep_witness :
    sleep 10 none = .resolvedAt 10 ∧
    sleep 10 (some (-1)) = .cancelledAt 0 ∧
    sleep 10 (some 3) = .cancelledAt 3 :=
  ⟨(claim_C8_sleep 10 0).1, (claim_C8_sleep 10 (-1)).2.1 (by norm_num),
    (claim_C8_sleep 10 3).2.2 (by norm_num) (by norm_num)⟩

/-- C6: with no timeout (or a zero timeout) the operation's promise is
returned unchanged and no timer is installed; with a positive timeout, if the
timer fires strictly before the operation settles (or the operation never
settles) the controller is aborted and the result is the `TimeoutError`
rejection at the deadline; if the operation settles strictly first, its
outcome is the result of the race. -/
theorem claim_C6_timeout {ε α : Type} (p : JSPromise (Except ε α)) (T t : ℚ)
    (r : Except ε α) (c : Bool) :
    withTimeout p none c = (liftPromise p, none) ∧
    withTimeout p (some 0) c = (liftPromise p, none) ∧
    (0 < T → T < t → withTimeout (some (t, r)) (some T) true =
      (some (T, .error .timeoutErr), some T)) ∧
    (0 < T → withTimeout (none : JSPromise (Except ε α)) (some T) true =
      (some (T, .error .timeoutErr), some T)) ∧
    (0 < T → t < T → withTimeout (some (t, r)) (some T) c =
      (some (t, liftUser r), if c then some T else none)) := by
  refine ⟨rfl, by simp [withTimeout], fun hT hTt => ?_, fun hT => ?_, fun hT htT => ?_⟩
  · simp [withTimeout, race, liftPromise, hT.ne', not_le.mpr hTt]
  · simp [withTimeout, race, liftPromise, hT.ne']
  · simp [withTimeout, race, liftPromise, hT.ne', le_of_lt htT]

/-- C6 witness: `claim_C6_timeout` at concrete settle times on both sides of a
concrete deadline. -/
theorem claim_C6_timeout_witness :
    withTimeout (some (20, Except.ok 3) : JSPromise (Except Nat Nat)) (some 10) true =
      (some (10, .error .timeoutErr), some 10) ∧
    withTimeout (some (5, Except.ok 3) : JSPromise (Except Nat Nat)) (some 10) true =
      (some (5, liftUser (Except.ok 3)), if true then some (10 : ℚ) else none) :=
  ⟨(claim_C6_timeout none 10 20 (Except.ok 3) true).2.2.1 (by norm_num) (by norm_num),
   (claim_C6_timeout none 10 5 (Except.ok 3) true).2.2.2.2 (by norm_num) (by norm_num)⟩

/-- A refused attempt leaves the breaker untouched: when `canAttempt` answers
`false` it has not modified any field. -/
theorem canAttempt_false_frozen (b : CircuitBreaker) (now : Int)
    (h : (b.canAttempt now).1 = false) : (b.canAttempt now).2 = b := by
  unfold CircuitBreaker.canAttempt at h ⊢
  split_ifs at h ⊢ ; simp_all

/-- C4: whenever the breaker refuses an attempt (`canAttempt` false), the
wrapped call terminates at once with `CircuitOpenError`: the underlying
callable is not invoked (`inv` unchanged), no further attempts happen
regardless of the remaining retries and of the retry predicate, no backoff
is computed (`retriesFired` unchanged), and `onFailure` is not invoked
(the breaker, hence its failure count, is unchanged). -/
theorem claim_C4_fail_fast {ε α Sg : Type} (retries : Nat) (retryOn : ε → Bool)
    (outcome : Nat → Except ε α) (time : Nat → Int) (uas : Bool) (freshSig : Nat → Sg)
    (bodySlot : Nat → Option Sg → Option Sg)
    (fuel attempt inv att rf : Nat) (b : CircuitBreaker) (slot : Option Sg)
    (lastErr : Option ε) (h : (b.canAttempt (time attempt)).1 = false) :
    attemptLoop retries retryOn outcome time uas freshSig bodySlot
      (fuel + 1) attempt inv att rf (some b) slot lastErr =
      { result := .error .circuitOpen, inv := inv, att := att + 1, retriesFired := rf,
        breaker := some b, slot := slot } ∧
    (b.canAttempt (time attempt)).2 = b := by
  have h2 := canAttempt_false_frozen b (time attempt) h
  refine ⟨?_, h2⟩
  simp [attemptLoop, circuitGate, h, h2]

/-- C4 witness: a breaker stuck `OPEN` (reset timeout not yet elapsed) makes
the wrapped call fail fast, leaving the breaker and all counters unchanged,
even with retries remaining and a retry predicate that always allows. -/
theorem claim_C4_fail_fast_witness :
    @attemptLoop Nat Nat Unit 5 (fun _ => true) (fun _ => .ok 1)
        (fun _ => 10) false (fun _ => ()) (fun _ s => s) 3 1 0 0 0
        (some { cfg := ⟨1, 100⟩, state := .OPEN, failures := 1, openedAt := 0 }) none none =
      { result := .error .circuitOpen, inv := 0, att := 1, retriesFired := 0,
        breaker := some { cfg := ⟨1, 100⟩, state := .OPEN, failures := 1, openedAt := 0 },
        slot := none } :=
  (claim_C4_fail_fast 5 (fun _ => true) (fun _ => .ok 1) (fun _ => 10) false (fun _ => ())
    (fun _ s => s) 2 1 0 0 0 ⟨⟨1, 100⟩, .OPEN, 1, 0⟩ none none (by decide)).1

/-- C3: with `failureThreshold = 3`, three consecutive failing calls open the
breaker (`OPEN`, `openedAt` = time of the third failure); a fourth call before
`resetTimeoutMs` has elapsed fails fast with `CircuitOpenError` without
invoking the underlying callable and without touching the breaker; once
`resetTimeoutMs` has elapsed `canAttempt` first moves the breaker to
`HALF_OPEN` and permits the call, and a success on that call closes the
breaker with the failure count reset to 0. -/
theorem claim_C3_breaker_scenario :
    cbScenOut1.result = .error (.user 7) ∧
    cbScenOut3.breaker =
      some { cfg := cbScenCfg, state := .OPEN, failures := 3, openedAt := 2 } ∧
    cbScenOut4.result = .error .circuitOpen ∧
    cbScenOut4.inv = 0 ∧
    cbScenOut4.breaker = cbScenOut3.breaker ∧
    CircuitBreaker.canAttempt
        { cfg := cbScenCfg, state := .OPEN, failures := 3, openedAt := 2 } 200 =
      (true, { cfg := cbScenCfg, state := .HALF_OPEN, failures := 3, openedAt := 2 }) ∧
    cbScenOut5.result = .ok 42 ∧
    cbScenOut5.inv = 1 ∧
    cbScenOut5.breaker =
      some { cfg := cbScenCfg, state := .CLOSED, failures := 0, openedAt := 2 } :=
  ⟨rfl, rfl, rfl, rfl, rfl, rfl, rfl, rfl, rfl⟩

/-- The attempt loop restores the ambient slot: whatever happens inside the
attempts, the slot after the loop equals the slot before it. -/
theorem attemptLoop_slot {ε α Sg : Type} (retries : Nat) (retryOn : ε → Bool)
    (outcome : Nat → Except ε α) (time : Nat → Int) (uas : Bool) (freshSig : Nat → Sg)
    (bodySlot : Nat → Option Sg → Option Sg) :
    ∀ (fuel attempt inv att rf : Nat) (br : Option CircuitBreaker) (slot : Option Sg)
      (lastErr : Option ε),
      (attemptLoop retries retryOn outcome time uas freshSig bodySlot
        fuel attempt inv att rf br slot lastErr).slot = slot := by
  intro fuel
  induction fuel with
  | zero => intro attempt inv att rf br slot lastErr; rfl
  | succ f ih =>
    intro attempt inv att rf br slot lastErr
    simp only [attemptLoop, runWithActiveSignal]
    by_cases hg : (circuitGate br (time attempt)).1
    · simp only [hg, if_true]
      cases houtcome : outcome inv with
      | ok a => simp [houtcome]
      | error e =>
        by_cases hr : attempt ≤ retries ∧ retryOn e = true
        · simp [houtcome, hr, ih]
        · simp [houtcome, hr]
    · simp [hg]

/-- C7: the ambient cancellation slot is handled with scoped save/restore:
`runWithActiveSignal` runs its body with the given signal installed and puts
the saved prior value back for every outcome of the body; the signal installed
for an attempt is the attempt's fresh controller signal when ambient
propagation is enabled and no signal at all when it is disabled; and a wrapped
call leaves the slot exactly as it found it, whether it resolves or rejects. -/
theorem claim_C7_ambient_slot (ε α Sg β : Type) :
    (∀ (sig : Option Sg) (fn : Option Sg → β × Option Sg) (slot : Option Sg),
      runWithActiveSignal sig fn slot = ((fn sig).1, slot)) ∧
    (∀ (freshSig : Nat → Sg) (attempt : Nat),
      attemptSignal true freshSig attempt = some (freshSig attempt) ∧
      attemptSignal false freshSig attempt = none) ∧
    (∀ (retries : Nat) (retryOn : ε → Bool) (outcome : Nat → Except ε α)
      (time : Nat → Int) (uas : Bool) (freshSig : Nat → Sg)
      (bodySlot : Nat → Option Sg → Option Sg) (br : Option CircuitBreaker)
      (slot : Option Sg),
      (withResilience retries retryOn outcome time uas freshSig bodySlot br slot).slot =
        slot) :=
  ⟨fun _ _ _ => rfl, fun _ _ => ⟨rfl, rfl⟩,
   fun retries retryOn outcome time uas freshSig bodySlot br slot =>
     attemptLoop_slot retries retryOn outcome time uas freshSig bodySlot
       (retries + 1) 1 0 0 0 br slot none⟩

/-- Unrolling of the attempt loop on a callable that fails at every invocation
with errors the retry predicate accepts: all remaining attempts run and the
last error is surfaced. -/
theorem attemptLoop_all_fail {ε α Sg : Type} (retries : Nat) (retryOn : ε → Bool)
    (e : Nat → ε) (he : ∀ i, retryOn (e i) = true) (time : Nat → Int) (uas : Bool)
    (freshSig : Nat → Sg) (bodySlot : Nat → Option Sg → Option Sg) :
    ∀ (f attempt inv att rf : Nat) (slot : Option Sg) (lastErr : Option ε),
      attempt + f + 1 = retries + 2 →
      @attemptLoop ε α Sg retries retryOn (fun i => Except.error (e i)) time uas freshSig
        bodySlot (f + 1) attempt inv att rf none slot lastErr =
        { result := .error (.user (e (inv + f))), inv := inv + f + 1,
          att := att + f + 1, retriesFired := rf + f, breaker := none, slot := slot } := by
  intro f
  induction f with
  | zero =>
    intro attempt inv att rf slot lastErr hat
    have hlast : ¬ (attempt ≤ retries) := by omega
    simp [attemptLoop, circuitGate, runWithActiveSignal, hlast, he]
  | succ g ih =>
    intro attempt inv att rf slot lastErr hat
    have h1 : attempt ≤ retries := by omega
    have step : @attemptLoop ε α Sg retries retryOn (fun i => Except.error (e i)) time uas
        freshSig bodySlot (g + 1 + 1) attempt inv att rf none slot lastErr =
        @attemptLoop ε α Sg retries retryOn (fun i => Except.error (e i)) time uas freshSig
          bodySlot (g + 1) (attempt + 1) (inv + 1) (att + 1) (rf + 1) none slot
          (some (e inv)) := by
      simp [attemptLoop, circuitGate, runWithActiveSignal, h1, he]
    rw [step, ih (attempt + 1) (inv + 1) (att + 1) (rf + 1) slot (some (e inv)) (by omega)]
    have e1 : inv + 1 + g = inv + (g + 1) := by omega
    have e3 : att + 1 + g + 1 = att + (g + 1) + 1 := by omega
    have e4 : rf + 1 + g = rf + (g + 1) := by omega
    rw [e1, e3, e4]

/-- C1: with `retries = n` and a callable failing on every invocation with
errors the retry predicate accepts (the default predicate accepts all), the
wrapped call invokes the underlying callable exactly `n + 1` times, fires
`onAttempt` exactly `n + 1` times, and rejects with the error of the last
(`n + 1`-th) attempt, propagated as that attempt's own error value. -/
theorem claim_C1_always_fails {ε α Sg : Type} (n : Nat) (retryOn : ε → Bool) (e : Nat → ε)
    (he : ∀ i, retryOn (e i) = true) (time : Nat → Int) (uas : Bool) (freshSig : Nat → Sg)
    (bodySlot : Nat → Option Sg → Option Sg) (slot : Option Sg) :
    @withResilience ε α Sg n retryOn (fun i => Except.error (e i)) time uas freshSig
      bodySlot none slot =
      { result := .error (.user (e n)), inv := n + 1, att := n + 1,
        retriesFired := n, breaker := none, slot := slot } := by
  have h := @attemptLoop_all_fail ε α Sg n retryOn e he time uas freshSig bodySlot
    n 1 0 0 0 slot none (by omega)
  simpa [withResilience] using h

/-- C1 witness: one retry, a callable failing with its invocation index; two
invocations, rejection with the second attempt's error. -/
theorem claim_C1_always_fails_witness :
    @withResilience Nat Nat Unit 1 (fun _ => true)
        (fun i => Except.error i) (fun _ => 0) false (fun _ => ()) (fun _ s => s)
        none none =
      { result := .error (.user 1), inv := 2, att := 2, retriesFired := 1,
        breaker := none, slot := none } := by
  have h := @claim_C1_always_fails Nat Nat Unit 1 (fun _ => true) (fun i => i)
    (fun _ => rfl) (fun _ => 0) false (fun _ => ()) (fun _ s => s) none
  simpa using h

/-- Unrolling of the attempt loop on a callable that fails `m` times with
retryable errors and then succeeds: exactly `m + 1` invocations happen and the
success value is returned. -/
theorem attemptLoop_succeeds_at {ε α Sg : Type} (retries : Nat) (retryOn : ε → Bool)
    (outcome : Nat → Except ε α) (v : α) (time : Nat → Int) (uas : Bool)
    (freshSig : Nat → Sg) (bodySlot : Nat → Option Sg → Option Sg) :
    ∀ (m fuel attempt inv att rf : Nat) (slot : Option Sg) (lastErr : Option ε),
      attempt + fuel = retries + 2 → m + 1 ≤ fuel →
      (∀ i, i < m → ∃ er, outcome (inv + i) = Except.error er ∧ retryOn er = true) →
      outcome (inv + m) = Except.ok v →
      attemptLoop retries retryOn outcome time uas freshSig bodySlot
        fuel attempt inv att rf none slot lastErr =
        { result := .ok v, inv := inv + m + 1, att := att + m + 1,
          retriesFired := rf + m, breaker := none, slot := slot } := by
  intro m
  induction m with
  | zero =>
    intro fuel attempt inv att rf slot lastErr hat hm hfail hsucc
    obtain ⟨f, rfl⟩ : ∃ f, fuel = f + 1 := ⟨fuel - 1, by omega⟩
    have h0 : outcome inv = Except.ok v := by simpa using hsucc
    simp [attemptLoop, circuitGate, runWithActiveSignal, h0]
  | succ s ih =>
    intro fuel attempt inv att rf slot lastErr hat hm hfail hsucc
    obtain ⟨f, rfl⟩ : ∃ f, fuel = f + 1 := ⟨fuel - 1, by omega⟩
    obtain ⟨er, her, hron⟩ := hfail 0 (by omega)
    have h0 : outcome inv = Except.error er := by simpa using her
    have h1 : attempt ≤ retries := by omega
    have step : attemptLoop retries retryOn outcome time uas freshSig bodySlot
        (f + 1) attempt inv att rf none slot lastErr =
        attemptLoop retries retryOn outcome time uas freshSig bodySlot
          f (attempt + 1) (inv + 1) (att + 1) (rf + 1) none slot (some er) := by
      simp [attemptLoop, circuitGate, runWithActiveSignal, h0, h1, hron]
    rw [step, ih f (attempt + 1) (inv + 1) (att + 1) (rf + 1) slot (some er) (by omega)
      (by omega)
      (fun i hi => by
        obtain ⟨er2, her2, hron2⟩ := hfail (i + 1) (by omega)
        exact ⟨er2, by rw [show inv + 1 + i = inv + (i + 1) by omega]; exact her2, hron2⟩)
      (by rw [show inv + 1 + s = inv + (s + 1) by omega]; exact hsucc)]
    have e1 : inv + 1 + s + 1 = inv + (s + 1) + 1 := by omega
    have e2 : att + 1 + s + 1 = att + (s + 1) + 1 := by omega
    have e3 : rf + 1 + s = rf + (s + 1) := by omega
    rw [e1, e2, e3]

/-- C2: with `retries = n` and a callable that fails on its first `k - 1`
invocations with errors the retry predicate accepts and succeeds on invocation
`k` (`1 ≤ k ≤ n + 1`), the wrapped call performs exactly `k` attempts and
resolves with the success value of attempt `k`. -/
theorem claim_C2_succeeds_at_k {ε α Sg : Type} (n k : Nat) (retryOn : ε → Bool)
    (outcome : Nat → Except ε α) (v : α) (time : Nat → Int) (uas : Bool)
    (freshSig : Nat → Sg) (bodySlot : Nat → Option Sg → Option Sg) (slot : Option Sg)
    (hk1 : 1 ≤ k) (hk2 : k ≤ n + 1)
    (hfail : ∀ i, i + 1 < k → ∃ er, outcome i = Except.error er ∧ retryOn er = true)
    (hsucc : outcome (k - 1) = Except.ok v) :
    withResilience n retryOn outcome time uas freshSig bodySlot none slot =
      { result := .ok v, inv := k, att := k, retriesFired := k - 1,
        breaker := none, slot := slot } := by
  obtain ⟨m, rfl⟩ : ∃ m, k = m + 1 := ⟨k - 1, by omega⟩
  have h := attemptLoop_succeeds_at n retryOn outcome v time uas freshSig bodySlot
    m (n + 1) 1 0 0 0 slot none (by omega) (by omega)
    (fun i hi => by simpa using hfail i (by omega)) (by simpa using hsucc)
  simpa [withResilience] using h

/-- C2 witness: one retry, a callable failing once with a retryable error and
succeeding on the second invocation; two attempts, resolution with the second
attempt's value. -/
theorem claim_C2_succeeds_at_k_witness :
    @withResilience Nat Nat Unit 1 (fun _ => true)
        (fun i => if i = 0 then Except.error 5 else Except.ok 9) (fun _ => 0) false
        (fun _ => ()) (fun _ s => s) none none =
      { result := .ok 9, inv := 2, att := 2, retriesFired := 1,
        breaker := none, slot := none } := by
  have h := @claim_C2_succeeds_at_k Nat Nat Unit 1 2 (fun _ => true)
    (fun i => if i = 0 then Except.error 5 else Except.ok 9) 9 (fun _ => 0) false
    (fun _ => ()) (fun _ s => s) none (by omega) (by omega)
    (fun i hi => ⟨5, by have : i = 0 := by omega
                        subst this
                        exact rfl, rfl⟩)
    rfl
  simpa using h

/-- C9: if the retry predicate rejects the first attempt's failure, no second
attempt occurs whatever the configured retry count: exactly one invocation,
and the call rejects with that failure itself, unwrapped. -/
theorem claim_C9_predicate_stops {ε α Sg : Type} (n : Nat) (retryOn : ε → Bool)
    (outcome : Nat → Except ε α) (e : ε) (time : Nat → Int) (uas : Bool)
    (freshSig : Nat → Sg) (bodySlot : Nat → Option Sg → Option Sg) (slot : Option Sg)
    (h1 : outcome 0 = Except.error e) (h2 : retryOn e = false) :
    withResilience n retryOn outcome time uas freshSig bodySlot none slot =
      { result := .error (.user e), inv := 1, att := 1, retriesFired := 0,
        breaker := none, slot := slot } := by
  have hno : ¬ (1 ≤ n ∧ retryOn e = true) := by simp [h2]
  simp [withResilience, attemptLoop, circuitGate, runWithActiveSignal, h1, hno]

/-- C9 witness: five retries configured, but the predicate rejects error 3;
one invocation, rejection with error 3. -/
theorem claim_C9_predicate_stops_witness :
    @withResilience Nat Nat Unit 5 (fun er => er ≠ 3)
        (fun _ => Except.error 3) (fun _ => 0) false (fun _ => ()) (fun _ s => s)
        none none =
      { result := .error (.user 3), inv := 1, att := 1, retriesFired := 0,
        breaker := none, slot := none } :=
  @claim_C9_predicate_stops Nat Nat Unit 5 (fun er => er ≠ 3) (fun _ => Except.error 3) 3
    (fun _ => 0) false (fun _ => ()) (fun _ s => s) none rfl (by decide)

/-- The three breaker operations never change the stored configuration. -/
theorem reachable_cfg_eq {cfg : CircuitBreakerConfig} {b : CircuitBreaker}
    (h : Reachable cfg b) : b.cfg = cfg := by
  induction h with
  | init => rfl
  | canAtt now hb ih =>
    unfold CircuitBreaker.canAttempt
    split_ifs <;> simpa using ih
  | success hb ih => simpa [CircuitBreaker.onSuccess] using ih
  | failure now hb ih =>
    unfold CircuitBreaker.onFailure
    split_ifs <;> simpa using ih

/-- Invariant of reachable breaker states: away from `CLOSED` the failure
count has already reached the threshold (the count is never reset on entering
`HALF_OPEN`). -/
theorem reachable_failures_ge {cfg : CircuitBreakerConfig} {b : CircuitBreaker}
    (h : Reachable cfg b) :
    (b.state = .OPEN ∨ b.state = .HALF_OPEN) → cfg.failureThreshold ≤ b.failures := by
  induction h with
  | init => intro hst; simp at hst
  | canAtt now hb ih =>
    unfold CircuitBreaker.canAttempt
    split_ifs with hC hO
    · simpa using ih
    · intro _
      simpa using ih (Or.inl hO.1)
    · simpa using ih
  | success hb ih =>
    intro hst
    simp [CircuitBreaker.onSuccess] at hst
  | failure now hb ih =>
    have hcfg := reachable_cfg_eq hb
    unfold CircuitBreaker.onFailure
    split_ifs with hth
    · intro _
      simpa [hcfg, ge_iff_le] using hth
    · intro hst
      simp only [] at hst
      have := ih (by simpa using hst)
      simp only []
      omega

/-- C10: for every breaker state reachable from the initial `CLOSED` state
with failure count 0 (threshold at least 1), being `OPEN` or `HALF_OPEN`
implies the failure count already reached the threshold; consequently any
`onFailure` received while `HALF_OPEN` immediately re-opens the circuit,
because the count was not reset on entering `HALF_OPEN`. -/
theorem claim_C10_breaker_invariant (cfg : CircuitBreakerConfig) (b : CircuitBreaker)
    (_hthr : 1 ≤ cfg.failureThreshold) (hb : Reachable cfg b) :
    ((b.state = .OPEN ∨ b.state = .HALF_OPEN) → cfg.failureThreshold ≤ b.failures) ∧
    (b.state = .HALF_OPEN → ∀ now, (b.onFailure now).state = .OPEN) := by
  refine ⟨reachable_failures_ge hb, fun hho now => ?_⟩
  have hfail := reachable_failures_ge hb (Or.inr hho)
  have hcfg := reachable_cfg_eq hb
  have hcond : b.cfg.failureThreshold ≤ b.failures + 1 := by rw [hcfg]; omega
  simp [CircuitBreaker.onFailure, ge_iff_le, hcond]

/-- C10 witness: with threshold 1, a single failure from the initial state is
reachable, is `OPEN`, and its failure count has reached the threshold. -/
theorem claim_C10_breaker_invariant_witness :
    1 ≤ ({ failureThreshold := 1, resetTimeoutMs := 100 } : CircuitBreakerConfig
      ).failureThreshold ∧
    1 ≤ (CircuitBreaker.onFailure { cfg := { failureThreshold := 1, resetTimeoutMs := 100 } }
      5).failures := by
  refine ⟨by decide, ?_⟩
  have h := claim_C10_breaker_invariant { failureThreshold := 1, resetTimeoutMs := 100 }
    (CircuitBreaker.onFailure { cfg := { failureThreshold := 1, resetTimeoutMs := 100 } } 5)
    (by decide) (Reachable.failure 5 Reachable.init)
  exact h.1 (Or.inl (by decide))

end Resilience
